import Mathlib

/-!
Shallow embedding of the StyleHub salon scheduling engine
(addons/gestion_peluquerias), verifying its specification.

Modelling conventions:
  * Odoo Float fields are embedded as exact rationals (ℚ).
  * Datetimes carried by appointments (date_start, date_end) are rationals
    (hours on a global timeline); for the business-hours check, local
    datetimes are naturals counting minutes since a local epoch whose day 0
    is a Monday, so the weekday of t is (t / 1440) % 7 with Monday = 0 and
    Sunday = 6, matching Python datetime.weekday().
  * The record store is a list of records; Odoo search/search_count over a
    domain becomes List.filter/length with the translated predicate.
  * Python exceptions (UserError / ValidationError) become an error
    enumeration carried by Except; an errored commit leaves the store
    unchanged (the surrounding transaction rolls back).
  * Required fields (partner_id, stylist_id, date_start) are always
    present, so the code's falsy-value guards on them are always taken on
    the truthy side.
-/

/-- Lifecycle states of stylehub.appointment (selection field `state`). -/
inductive ApptState where
  | draft
  | confirmed
  | done
  | cancelled
deriving DecidableEq, Repr

/-- Symbolic names for the errors raised by the module; the source raises
UserError / ValidationError with messages, the spec names them. -/
inductive StylehubError where
  | ScheduleConflict
  | NoScheduleConfigured
  | ClosedDay
  | SaturdayClosed
  | OutsideBusinessHours
  | ScheduleAlreadyExists
  | ScheduleIsProtected
  | ScheduleLocked
  | InvalidTransition
deriving DecidableEq, Repr

/-- Stored row of stylehub.appointment, restricted to the fields the
verified logic reads: id, partner_id, stylist_id, the two datetimes, the
computed subtotal and the lifecycle state. -/
structure Appointment where
  id : Nat
  partner_id : Nat
  stylist_id : Nat
  date_start : ℚ
  date_end : ℚ
  total_amount : ℚ
  state : ApptState
deriving DecidableEq, Repr

/-- Row of stylehub.appointment.line: the editable price/duration snapshot. -/
structure Line where
  price_unit : ℚ
  duration : ℚ
deriving DecidableEq, Repr

/-- Embeds `_compute_totals`: total_duration is the sum of the line
durations, total_amount the sum of the line prices. -/
def compute_totals (lines : List Line) : ℚ × ℚ :=
  ((lines.map (·.duration)).sum, (lines.map (·.price_unit)).sum)

/-- Embeds `_compute_date_end`: if date_start and total_duration are both
truthy, date_end = date_start + total_duration, else date_end = date_start.
date_start is required hence always truthy; a float is truthy iff nonzero. -/
def compute_date_end (date_start total_duration : ℚ) : ℚ :=
  if total_duration ≠ 0 then date_start + total_duration else date_start

/-- Changing the duration of line i (the re-save of the spec's idempotent
recomputation scenario); out-of-range indices leave the list unchanged. -/
def updateDuration (lines : List Line) (i : Nat) (d : ℚ) : List Line :=
  match lines.get? i with
  | some l => lines.set i { l with duration := d }
  | none => lines

/-- Embeds `action_confirm` on one record: only draft may be confirmed. -/
def action_confirm (s : ApptState) : Except StylehubError ApptState :=
  if s ≠ ApptState.draft then .error .InvalidTransition else .ok .confirmed

/-- Embeds `action_done` on one record: only confirmed may be completed. -/
def action_done (s : ApptState) : Except StylehubError ApptState :=
  if s ≠ ApptState.confirmed then .error .InvalidTransition else .ok .done

/-- Embeds `action_cancel` on one record: a done appointment may not be
cancelled, every other state may. -/
def action_cancel (s : ApptState) : Except StylehubError ApptState :=
  if s = ApptState.done then .error .InvalidTransition else .ok .cancelled

/-- Embeds `action_reset_draft` on one record: only cancelled resets. -/
def action_reset_draft (s : ApptState) : Except StylehubError ApptState :=
  if s ≠ ApptState.cancelled then .error .InvalidTransition else .ok .draft

/-! Business-hours validation (`_check_business_hours`). Local datetimes
are naturals in minutes; day 0 of the local epoch is a Monday. -/

/-- Python int() truncates toward zero. -/
def int_trunc (q : ℚ) : ℤ :=
  if 0 ≤ q then ⌊q⌋ else ⌈q⌉

/-- Python 3 round() on a rational: round half to even. -/
def pyRound (q : ℚ) : ℤ :=
  let f := ⌊q⌋
  let r := q - f
  if r < 1 / 2 then f
  else if 1 / 2 < r then f + 1
  else if f % 2 = 0 then f else f + 1

/-- Embeds `_make_time`: the minute-of-day encoded by a fractional-hours
float, as computed by int()/round() in the source. -/
def floatHoursToMinutes (h : ℚ) : ℤ :=
  int_trunc h * 60 + pyRound ((h - ⌊h⌋) * 60)

/-- Embeds `_make_time dt float_hours`: the datetime on dt's local day at
the wall-clock time encoded by float_hours (seconds zeroed: minute grain). -/
def make_time (dt : Nat) (h : ℚ) : ℤ :=
  ((dt / 1440 : Nat) * 1440 : ℤ) + floatHoursToMinutes h

/-- Weekday of a local datetime, Monday = 0 … Sunday = 6. -/
def weekdayOf (dt : Nat) : Nat :=
  (dt / 1440) % 7

/-- Row of stylehub.schedule (the Schedule Policy singleton). -/
structure Schedule where
  name : String
  weekday_morning_open : ℚ
  weekday_morning_close : ℚ
  weekday_afternoon_open : ℚ
  weekday_afternoon_close : ℚ
  saturday_active : Bool
  saturday_morning_open : ℚ
  saturday_morning_close : ℚ
  saturday_afternoon_active : Bool
  saturday_afternoon_open : ℚ
  saturday_afternoon_close : ℚ
deriving DecidableEq, Repr

/-- Default field values of stylehub.schedule as declared in the source. -/
def default_schedule : Schedule where
  name := "Horario de la Peluquería"
  weekday_morning_open := 9.5
  weekday_morning_close := 13.5
  weekday_afternoon_open := 16.5
  weekday_afternoon_close := 20.5
  saturday_active := true
  saturday_morning_open := 9.5
  saturday_morning_close := 14
  saturday_afternoon_active := false
  saturday_afternoon_open := 16.5
  saturday_afternoon_close := 20

/-- Embeds `_check_business_hours` for one appointment with local start s
and local end e (minutes). The schedule argument is the result of
search([], limit=1): none when no Schedule Policy record exists. -/
def check_business_hours (sched : Option Schedule) (s e : Nat) :
    Except StylehubError Unit :=
  match sched with
  | none => .error .NoScheduleConfigured
  | some p =>
    if weekdayOf s = 6 then .error .ClosedDay
    else if weekdayOf s = 5 then
      if p.saturday_active = false then .error .SaturdayClosed
      else
        let in_sat_morning :=
          make_time s p.saturday_morning_open ≤ (s : ℤ) ∧
            (e : ℤ) ≤ make_time s p.saturday_morning_close
        let in_sat_afternoon :=
          p.saturday_afternoon_active = true ∧
            make_time s p.saturday_afternoon_open ≤ (s : ℤ) ∧
            (e : ℤ) ≤ make_time s p.saturday_afternoon_close
        if ¬in_sat_morning ∧ ¬in_sat_afternoon then .error .OutsideBusinessHours
        else .ok ()
    else
      let in_morning :=
        make_time s p.weekday_morning_open ≤ (s : ℤ) ∧
          (e : ℤ) ≤ make_time s p.weekday_morning_close
      let in_afternoon :=
        make_time s p.weekday_afternoon_open ≤ (s : ℤ) ∧
          (e : ℤ) ≤ make_time s p.weekday_afternoon_close
      if ¬in_morning ∧ ¬in_afternoon then .error .OutsideBusinessHours
      else .ok ()

/-! Overlap detection (`_check_stylist_overlap`). -/

/-- Translates the search domain of `_check_stylist_overlap`: other is a
conflicting record for rec iff it books the same stylist, is not
cancelled, is a different record, and its half-open interval intersects
rec's ([date_start, date_end) with strict/strict comparisons). -/
def conflictsWith (rec other : Appointment) : Bool :=
  decide (other.stylist_id = rec.stylist_id) &&
  decide (other.state ≠ ApptState.cancelled) &&
  decide (other.id ≠ rec.id) &&
  decide (other.date_start < rec.date_end) &&
  decide (other.date_end > rec.date_start)

/-- Embeds `_check_stylist_overlap` for one record against the full store
(which already contains the record itself when the constraint fires):
cancelled records skip the check, otherwise any conflicting record raises. -/
def check_stylist_overlap (db : List Appointment) (rec : Appointment) :
    Except StylehubError Unit :=
  if rec.state = ApptState.cancelled then .ok ()
  else if 0 < (db.filter (conflictsWith rec)).length then .error .ScheduleConflict
  else .ok ()

/-- Commit of a create with respect to the overlap constraint: the record
joins the store, then the constraint runs on it; on error the transaction
rolls back. -/
def create_appointment (db : List Appointment) (rec : Appointment) :
    Except StylehubError (List Appointment) :=
  match check_stylist_overlap (rec :: db) rec with
  | .ok _ => .ok (rec :: db)
  | .error e => .error e

/-- Commit of a write with respect to the overlap constraint: every stored
row with the written record's id takes its new value, then the constraint
runs on the written record against the updated store. -/
def write_appointment (db : List Appointment) (rec : Appointment) :
    Except StylehubError (List Appointment) :=
  match check_stylist_overlap
      (db.map (fun a => if a.id = rec.id then rec else a)) rec with
  | .ok _ => .ok (db.map (fun a => if a.id = rec.id then rec else a))
  | .error e => .error e

/-- Commit of `action_cancel` on a stored record: refused on a done
appointment, otherwise a write setting state to cancelled. -/
def action_cancel_commit (db : List Appointment) (a : Appointment) :
    Except StylehubError (List Appointment) :=
  if a.state = ApptState.done then .error .InvalidTransition
  else write_appointment db { a with state := ApptState.cancelled }

/-- The spec's schedule-integrity invariant: two distinct non-cancelled
appointments of one stylist have non-intersecting half-open intervals. -/
def NoOverlapInvariant (db : List Appointment) : Prop :=
  ∀ a ∈ db, ∀ b ∈ db, a.id ≠ b.id → a.stylist_id = b.stylist_id →
    a.state ≠ ApptState.cancelled → b.state ≠ ApptState.cancelled →
    a.date_end ≤ b.date_start ∨ b.date_end ≤ a.date_start

/-! Discount computation (`_compute_discount`). -/

/-- Translates the search_count of `_compute_discount`: the number of
stored appointments of rec's client in state done with date_start strictly
earlier than rec's (rec never matches itself, its start not being strictly
smaller than itself). -/
def prior_done_count (db : List Appointment) (rec : Appointment) : Nat :=
  (db.filter (fun a =>
    decide (a.partner_id = rec.partner_id) &&
    decide (a.state = ApptState.done) &&
    decide (a.date_start < rec.date_start))).length

/-- Embeds `_compute_discount` for one record, returning
(discount_amount, final_amount): with partner_id and date_start required
(hence truthy), the discount applies iff the client had at least 5 prior
done appointments; discount_amount is then 5% of total_amount, else 0, and
final_amount = total_amount - discount_amount. -/
def compute_discount (db : List Appointment) (rec : Appointment) : ℚ × ℚ :=
  let d : ℚ :=
    if 5 ≤ prior_done_count db rec then rec.total_amount * (5 / 100) else 0
  (d, rec.total_amount - d)

/-- Concrete store for the discount scenarios: client 7 with five done
appointments starting at hours 1 through 5. -/
def clientHistory5 : List Appointment :=
  [⟨1, 7, 1, 1, 2, 20, .done⟩, ⟨2, 7, 2, 2, 3, 20, .done⟩,
   ⟨3, 7, 3, 3, 4, 20, .done⟩, ⟨4, 7, 4, 4, 5, 20, .done⟩,
   ⟨5, 7, 5, 5, 6, 20, .done⟩]

/-- Concrete store: client 7 with six done appointments (hours 1 to 6). -/
def clientHistory6 : List Appointment :=
  clientHistory5 ++ [⟨6, 7, 6, 6, 7, 20, .done⟩]

/-- Client 7's 6th-by-time appointment: five prior done, subtotal 100. -/
def apptAfterFive : Appointment := ⟨7, 7, 1, 10, 11, 100, .draft⟩

/-- The same booking placed at hour 5: only four prior done. -/
def apptAfterFour : Appointment := ⟨7, 7, 1, 5, 6, 100, .draft⟩

/-- Client 7's 7th-by-time appointment: six prior done, subtotal 100. -/
def seventhAppt : Appointment := ⟨8, 7, 1, 10, 11, 100, .draft⟩

/-- A cancelled appointment for client 7 after five prior done. -/
def cancelledSixth : Appointment := ⟨7, 7, 1, 10, 11, 100, .cancelled⟩

/-! Schedule Policy guards (stylehub_schedule.py). -/

/-- Embeds the search_count shared by `_compute_has_active_appointments`
and `write`: some appointment is in state draft or confirmed. -/
def has_active_appointments (appts : List Appointment) : Bool :=
  appts.any (fun a =>
    decide (a.state = ApptState.draft) || decide (a.state = ApptState.confirmed))

/-- Embeds `create` of stylehub.schedule, an @api.model_create_multi
override receiving vals_list: the singleton guard search_count runs once
per call, before insertion, and on a pass every record of vals_list is
created. -/
def schedule_create (schedules : List Schedule) (vals_list : List Schedule) :
    Except StylehubError (List Schedule) :=
  if 0 < schedules.length then .error .ScheduleAlreadyExists
  else .ok (schedules ++ vals_list)

/-- Embeds `unlink` of stylehub.schedule: deletion is always refused, for
every record and every caller. -/
def schedule_unlink (_schedules : List Schedule) :
    Except StylehubError (List Schedule) :=
  .error .ScheduleIsProtected

/-- Embeds `write` of stylehub.schedule: refused while any draft or
confirmed appointment exists, otherwise vals is applied to the records. -/
def schedule_write (appts : List Appointment) (schedules : List Schedule)
    (vals : Schedule → Schedule) : Except StylehubError (List Schedule) :=
  if has_active_appointments appts then .error .ScheduleLocked
  else .ok (schedules.map vals)

/-- The write paths of the schedule table: create (with its vals_list),
write (under the appointment population seen at that commit) and unlink. -/
inductive SchedOp where
  | create (vals_list : List Schedule)
  | write (appts : List Appointment) (vals : Schedule → Schedule)
  | unlink

/-- One committed operation on the schedule table. -/
def schedStep (st : List Schedule) (op : SchedOp) :
    Except StylehubError (List Schedule) :=
  match op with
  | .create vals_list => schedule_create st vals_list
  | .write appts vals => schedule_write appts st vals
  | .unlink => schedule_unlink st

/-- Schedule-table states reachable from the initial empty table by
successful commits. -/
inductive SchedReachable : List Schedule → Prop where
  | init : SchedReachable []
  | step {st st' : List Schedule} (op : SchedOp) :
      SchedReachable st → schedStep st op = .ok st' → SchedReachable st'

theorem conflictsWith_false_of_separated (rec b : Appointment)
    (h : rec.date_end ≤ b.date_start ∨ b.date_end ≤ rec.date_start) :
    conflictsWith rec b = false := by
  by_contra hne
  have htrue := Bool.of_not_eq_false hne
  simp only [conflictsWith, Bool.and_eq_true, decide_eq_true_eq] at htrue
  obtain ⟨⟨⟨⟨hs, hc⟩, hid⟩, h1⟩, h2⟩ := htrue
  rcases h with h | h
  · exact absurd h1 (not_lt.mpr h)
  · exact absurd h2 (not_lt.mpr h)

theorem separated_of_conflictsWith_false (rec b : Appointment)
    (h : conflictsWith rec b = false)
    (hs : b.stylist_id = rec.stylist_id) (hc : b.state ≠ ApptState.cancelled)
    (hid : b.id ≠ rec.id) :
    rec.date_end ≤ b.date_start ∨ b.date_end ≤ rec.date_start := by
  rcases le_or_lt rec.date_end b.date_start with h1 | h1
  · exact Or.inl h1
  rcases le_or_lt b.date_end rec.date_start with h2 | h2
  · exact Or.inr h2
  exfalso
  have : conflictsWith rec b = true := by
    simp only [conflictsWith, Bool.and_eq_true, decide_eq_true_eq]
    exact ⟨⟨⟨⟨hs, hc⟩, hid⟩, h1⟩, h2⟩
  rw [this] at h
  exact Bool.true_eq_false.mp h

theorem check_ok_no_conflict (db : List Appointment) (rec : Appointment)
    (hok : check_stylist_overlap db rec = .ok ())
    (hnc : rec.state ≠ ApptState.cancelled) :
    ∀ b ∈ db, conflictsWith rec b = false := by
  intro b hb
  unfold check_stylist_overlap at hok
  rw [if_neg hnc] at hok
  by_contra hconf
  have hmem : b ∈ db.filter (conflictsWith rec) :=
    List.mem_filter.mpr ⟨hb, Bool.of_not_eq_false hconf⟩
  have hpos : 0 < (db.filter (conflictsWith rec)).length :=
    List.length_pos.mpr (List.ne_nil_of_mem hmem)
  rw [if_pos hpos] at hok
  exact Except.noConfusion hok

theorem check_ok_of_no_conflict (db : List Appointment) (rec : Appointment)
    (h : ∀ b ∈ db, conflictsWith rec b = false) :
    check_stylist_overlap db rec = .ok () := by
  unfold check_stylist_overlap
  by_cases hc : rec.state = ApptState.cancelled
  · rw [if_pos hc]
  · rw [if_neg hc]
    have hnil : db.filter (conflictsWith rec) = [] := by
      rw [List.filter_eq_nil_iff]
      intro b hb
      simp [h b hb]
    rw [hnil]
    simp

theorem check_error_of_conflict (db : List Appointment) (rec : Appointment)
    (hnc : rec.state ≠ ApptState.cancelled)
    (h : ∃ b ∈ db, conflictsWith rec b = true) :
    check_stylist_overlap db rec = .error .ScheduleConflict := by
  obtain ⟨b, hb, hconf⟩ := h
  unfold check_stylist_overlap
  rw [if_neg hnc]
  have hmem : b ∈ db.filter (conflictsWith rec) :=
    List.mem_filter.mpr ⟨hb, hconf⟩
  have hpos : 0 < (db.filter (conflictsWith rec)).length :=
    List.length_pos.mpr (List.ne_nil_of_mem hmem)
  rw [if_pos hpos]

theorem create_ok_elim (db : List Appointment) (rec : Appointment)
    (db2 : List Appointment) (hok : create_appointment db rec = .ok db2) :
    check_stylist_overlap (rec :: db) rec = .ok () ∧ db2 = rec :: db := by
  unfold create_appointment at hok
  cases h : check_stylist_overlap (rec :: db) rec with
  | error e => rw [h] at hok; simp at hok
  | ok u =>
    rw [h] at hok
    simp only [Except.ok.injEq] at hok
    exact ⟨by cases u; rfl, hok.symm⟩

theorem write_ok_elim (db : List Appointment) (rec : Appointment)
    (db2 : List Appointment) (hok : write_appointment db rec = .ok db2) :
    check_stylist_overlap
        (db.map (fun a => if a.id = rec.id then rec else a)) rec = .ok () ∧
      db2 = db.map (fun a => if a.id = rec.id then rec else a) := by
  unfold write_appointment at hok
  cases h : check_stylist_overlap
      (db.map (fun a => if a.id = rec.id then rec else a)) rec with
  | error e => rw [h] at hok; simp at hok
  | ok u =>
    rw [h] at hok
    simp only [Except.ok.injEq] at hok
    exact ⟨by cases u; rfl, hok.symm⟩

theorem create_ok_inv (db : List Appointment) (rec : Appointment)
    (hinv : NoOverlapInvariant db) (db2 : List Appointment)
    (hok : create_appointment db rec = .ok db2) :
    NoOverlapInvariant db2 := by
  obtain ⟨hcheck, hdb2⟩ := create_ok_elim db rec db2 hok
  subst hdb2
  intro a ha b hb hid hsty hanc hbnc
  rcases List.mem_cons.mp ha with ha1 | ha2
  · rcases List.mem_cons.mp hb with hb1 | hb2
    · rw [ha1, hb1] at hid
      exact absurd rfl hid
    · subst ha1
      have hconf := check_ok_no_conflict _ _ hcheck hanc b (List.mem_cons_of_mem _ hb2)
      exact separated_of_conflictsWith_false a b hconf hsty.symm hbnc (Ne.symm hid)
  · rcases List.mem_cons.mp hb with hb1 | hb2
    · subst hb1
      have hconf := check_ok_no_conflict _ _ hcheck hbnc a (List.mem_cons_of_mem _ ha2)
      exact (separated_of_conflictsWith_false b a hconf hsty hanc hid).symm
    · exact hinv a ha2 b hb2 hid hsty hanc hbnc

theorem write_ok_inv (db : List Appointment) (rec : Appointment)
    (hinv : NoOverlapInvariant db) (db2 : List Appointment)
    (hok : write_appointment db rec = .ok db2) :
    NoOverlapInvariant db2 := by
  obtain ⟨hcheck, hdb2⟩ := write_ok_elim db rec db2 hok
  subst hdb2
  intro a ha b hb hid hsty hanc hbnc
  obtain ⟨a0, ha0, hfa⟩ := List.mem_map.mp ha
  obtain ⟨b0, hb0, hfb⟩ := List.mem_map.mp hb
  by_cases ha0id : a0.id = rec.id <;> by_cases hb0id : b0.id = rec.id
  · rw [if_pos ha0id] at hfa
    rw [if_pos hb0id] at hfb
    rw [← hfa, ← hfb] at hid
    exact absurd rfl hid
  · rw [if_pos ha0id] at hfa
    rw [if_neg hb0id] at hfb
    subst hfa
    subst hfb
    have hconf := check_ok_no_conflict _ _ hcheck hanc b0 hb
    exact separated_of_conflictsWith_false rec b0 hconf hsty.symm hbnc (Ne.symm hid)
  · rw [if_neg ha0id] at hfa
    rw [if_pos hb0id] at hfb
    subst hfa
    subst hfb
    have hconf := check_ok_no_conflict _ _ hcheck hbnc a0 ha
    exact (separated_of_conflictsWith_false rec a0 hconf hsty hanc hid).symm
  · rw [if_neg ha0id] at hfa
    rw [if_neg hb0id] at hfb
    subst hfa
    subst hfb
    exact hinv a0 ha0 b0 hb0 hid hsty hanc hbnc

theorem conflictsWith_self_false (rec : Appointment) :
    conflictsWith rec rec = false := by
  simp [conflictsWith]

theorem conflictsWith_cancelled_false (rec b : Appointment)
    (h : b.state = ApptState.cancelled) : conflictsWith rec b = false := by
  simp [conflictsWith, h]

/-! Theorems. -/

/-- C1: non-cancelled appointments of one stylist never intersect on their
half-open intervals in any state reachable by successful commits: touching
or separated intervals never count as a conflict (half-open semantics), a
create against an overlapping non-cancelled record of the same stylist
fails with ScheduleConflict, a create whose interval is separated from or
touching every other non-cancelled record of the stylist succeeds,
successful creates and writes preserve the no-overlap invariant, and
cancelling an appointment always succeeds (from any non-done state) and
frees its slot: a new appointment conflicting only with the cancelled one
(for instance with the identical interval and the same stylist) is then
accepted. -/
theorem stylist_no_overlap_invariant (db : List Appointment) (rec : Appointment) :
    (∀ b : Appointment,
      rec.date_end ≤ b.date_start ∨ b.date_end ≤ rec.date_start →
        conflictsWith rec b = false) ∧
    (rec.state ≠ ApptState.cancelled →
      (∃ b ∈ db, conflictsWith rec b = true) →
      create_appointment db rec = .error .ScheduleConflict) ∧
    ((∀ b ∈ db, b.stylist_id = rec.stylist_id → b.state ≠ ApptState.cancelled →
        b.id ≠ rec.id → rec.date_end ≤ b.date_start ∨ b.date_end ≤ rec.date_start) →
      create_appointment db rec = .ok (rec :: db)) ∧
    (NoOverlapInvariant db →
      ∀ db2, create_appointment db rec = .ok db2 → NoOverlapInvariant db2) ∧
    (NoOverlapInvariant db →
      ∀ db2, write_appointment db rec = .ok db2 → NoOverlapInvariant db2) ∧
    (∀ a ∈ db, a.state ≠ ApptState.done →
      action_cancel_commit db a =
        .ok (db.map (fun x => if x.id = a.id
          then { a with state := ApptState.cancelled } else x)) ∧
      ((∀ b ∈ db, b.id ≠ a.id → conflictsWith rec b = false) →
        create_appointment
            (db.map (fun x => if x.id = a.id
              then { a with state := ApptState.cancelled } else x)) rec =
          .ok (rec :: db.map (fun x => if x.id = a.id
            then { a with state := ApptState.cancelled } else x)))) := by
  refine ⟨fun b h => conflictsWith_false_of_separated rec b h, ?_, ?_, ?_, ?_, ?_⟩
  · intro hnc hex
    obtain ⟨b, hb, hconf⟩ := hex
    have herr := check_error_of_conflict (rec :: db) rec hnc
      ⟨b, List.mem_cons_of_mem _ hb, hconf⟩
    unfold create_appointment
    rw [herr]
  · intro hsep
    have hall : ∀ b ∈ rec :: db, conflictsWith rec b = false := by
      intro b hb
      rcases List.mem_cons.mp hb with hb1 | hb2
      · rw [hb1]
        exact conflictsWith_self_false rec
      · by_cases hs : b.stylist_id = rec.stylist_id
        · by_cases hc : b.state = ApptState.cancelled
          · exact conflictsWith_cancelled_false rec b hc
          · by_cases hid : b.id = rec.id
            · simp [conflictsWith, hid]
            · exact conflictsWith_false_of_separated rec b (hsep b hb2 hs hc hid)
        · simp [conflictsWith, hs]
    have hok := check_ok_of_no_conflict _ _ hall
    unfold create_appointment
    rw [hok]
  · exact fun hinv db2 hok => create_ok_inv db rec hinv db2 hok
  · exact fun hinv db2 hok => write_ok_inv db rec hinv db2 hok
  · intro a ha hdone
    constructor
    · have hcheck : check_stylist_overlap
          (db.map (fun x =>
            if x.id = ({ a with state := ApptState.cancelled } : Appointment).id
            then { a with state := ApptState.cancelled } else x))
          { a with state := ApptState.cancelled } = .ok () := by
        unfold check_stylist_overlap
        exact if_pos rfl
      unfold action_cancel_commit write_appointment
      rw [if_neg hdone, hcheck]
    · intro hfree
      have hall : ∀ b ∈ rec :: db.map (fun x => if x.id = a.id
          then { a with state := ApptState.cancelled } else x),
          conflictsWith rec b = false := by
        intro b hb
        rcases List.mem_cons.mp hb with hb1 | hb2
        · rw [hb1]
          exact conflictsWith_self_false rec
        · obtain ⟨b0, hb0, hfb⟩ := List.mem_map.mp hb2
          by_cases hbid : b0.id = a.id
          · rw [if_pos hbid] at hfb
            rw [← hfb]
            exact conflictsWith_cancelled_false rec _ rfl
          · rw [if_neg hbid] at hfb
            rw [← hfb]
            exact hfree b0 hb0 hbid
      have hok := check_ok_of_no_conflict _ _ hall
      unfold create_appointment
      rw [hok]

/-- C1 witness: stylist 1 has a confirmed appointment over hours [10, 12);
creating an overlapping [11, 13) appointment fails with ScheduleConflict,
a touching [12, 13) appointment is accepted, and after cancelling the
[10, 12) appointment a new one with the identical interval and the same
stylist is accepted. -/
theorem stylist_no_overlap_invariant_witness :
    create_appointment [⟨1, 1, 1, 10, 12, 50, .confirmed⟩]
        ⟨2, 2, 1, 11, 13, 30, .draft⟩ = .error .ScheduleConflict ∧
    create_appointment [⟨1, 1, 1, 10, 12, 50, .confirmed⟩]
        ⟨3, 3, 1, 12, 13, 30, .draft⟩ =
      .ok [⟨3, 3, 1, 12, 13, 30, .draft⟩, ⟨1, 1, 1, 10, 12, 50, .confirmed⟩] ∧
    action_cancel_commit [⟨1, 1, 1, 10, 12, 50, .confirmed⟩]
        ⟨1, 1, 1, 10, 12, 50, .confirmed⟩ =
      .ok [⟨1, 1, 1, 10, 12, 50, .cancelled⟩] ∧
    create_appointment [⟨1, 1, 1, 10, 12, 50, .cancelled⟩]
        ⟨4, 4, 1, 10, 12, 30, .draft⟩ =
      .ok [⟨4, 4, 1, 10, 12, 30, .draft⟩, ⟨1, 1, 1, 10, 12, 50, .cancelled⟩] := by
  have h6 := (stylist_no_overlap_invariant
    [⟨1, 1, 1, 10, 12, 50, .confirmed⟩] ⟨4, 4, 1, 10, 12, 30, .draft⟩).2.2.2.2.2
    ⟨1, 1, 1, 10, 12, 50, .confirmed⟩ (by simp) (by decide)
  refine ⟨?_, ?_, h6.1, h6.2 (by decide)⟩
  · exact (stylist_no_overlap_invariant
      [⟨1, 1, 1, 10, 12, 50, .confirmed⟩] ⟨2, 2, 1, 11, 13, 30, .draft⟩).2.1
      (by decide) ⟨⟨1, 1, 1, 10, 12, 50, .confirmed⟩, by simp, by decide⟩
  · exact (stylist_no_overlap_invariant
      [⟨1, 1, 1, 10, 12, 50, .confirmed⟩] ⟨3, 3, 1, 12, 13, 30, .draft⟩).2.2.1
      (by decide)

/-- C2: for every appointment, date_end = date_start + total_duration where
total_duration is the sum of the line durations and total_amount the sum of
the line prices; with no lines date_end = date_start; and recomputation
after changing a line's duration satisfies the same equation. -/
theorem date_end_eq_start_plus_duration (lines : List Line) (ds : ℚ) :
    compute_date_end ds (compute_totals lines).1 =
      ds + (lines.map (·.duration)).sum ∧
    (compute_totals lines).2 = (lines.map (·.price_unit)).sum ∧
    (lines = [] → compute_date_end ds (compute_totals lines).1 = ds) ∧
    (∀ (i : Nat) (d : ℚ),
      compute_date_end ds (compute_totals (updateDuration lines i d)).1 =
        ds + ((updateDuration lines i d).map (·.duration)).sum) := by
  have key : ∀ (l : List Line),
      compute_date_end ds (compute_totals l).1 = ds + (l.map (·.duration)).sum := by
    intro l
    simp only [compute_date_end, compute_totals]
    by_cases h : (l.map (·.duration)).sum = 0
    · simp [h]
    · simp [h]
  refine ⟨key lines, rfl, ?_, fun i d => key (updateDuration lines i d)⟩
  intro h
  subst h
  simp [compute_date_end, compute_totals]

/-- C2 witness: a concrete two-line appointment starting at hour 10 with
durations 1 and 1/2 ends at 11.5, totals are as summed, the empty line
list keeps date_end = date_start, and editing line 0's duration to 2
moves date_end to 12. -/
theorem date_end_eq_start_plus_duration_witness :
    compute_date_end 10 (compute_totals [⟨20, 1⟩, ⟨15, 1/2⟩]).1 = 10 + (3/2) ∧
    compute_date_end 0 (compute_totals ([] : List Line)).1 = 0 ∧
    compute_date_end 10 (compute_totals (updateDuration [⟨20, 1⟩, ⟨15, 1/2⟩] 0 2)).1 =
      10 + (5/2) := by
  refine ⟨?_, ?_, ?_⟩
  · have h := (date_end_eq_start_plus_duration [⟨20, 1⟩, ⟨15, 1/2⟩] 10).1
    rw [h]; norm_num
  · exact (date_end_eq_start_plus_duration ([] : List Line) 0).2.2.1 rfl
  · have h := (date_end_eq_start_plus_duration [⟨20, 1⟩, ⟨15, 1/2⟩] 10).2.2.2 0 2
    rw [h]
    norm_num [updateDuration]

/-- C4: with no Schedule Policy record, the business-hours constraint
rejects every appointment with NoScheduleConfigured, whatever its local
start and end. -/
theorem no_schedule_blocks_all (s e : Nat) :
    check_business_hours none s e = .error .NoScheduleConfigured := rfl

/-- C7: confirm succeeds exactly from draft (to confirmed), complete
exactly from confirmed (to done), cancel exactly from non-done (to
cancelled), reset exactly from cancelled (to draft); every other case
fails with InvalidTransition (the transaction then keeps the old state). -/
theorem lifecycle_transitions (s : ApptState) :
    (action_confirm s = .ok .confirmed ↔ s = .draft) ∧
    (s ≠ .draft → action_confirm s = .error .InvalidTransition) ∧
    (action_done s = .ok .done ↔ s = .confirmed) ∧
    (s ≠ .confirmed → action_done s = .error .InvalidTransition) ∧
    (action_cancel s = .ok .cancelled ↔ s ≠ .done) ∧
    (s = .done → action_cancel s = .error .InvalidTransition) ∧
    (action_reset_draft s = .ok .draft ↔ s = .cancelled) ∧
    (s ≠ .cancelled → action_reset_draft s = .error .InvalidTransition) := by
  cases s <;>
    simp [action_confirm, action_done, action_cancel, action_reset_draft]

/-- C7 witness: at the concrete state confirmed, confirm fails with
InvalidTransition and complete succeeds. -/
theorem lifecycle_transitions_witness :
    action_confirm .confirmed = .error .InvalidTransition ∧
    action_done .confirmed = .ok .done := by
  refine ⟨(lifecycle_transitions .confirmed).2.1 (by decide), ?_⟩
  exact (lifecycle_transitions .confirmed).2.2.1.mpr rfl

theorem compute_discount_fst (db : List Appointment) (rec : Appointment) :
    (compute_discount db rec).1 =
      if 5 ≤ prior_done_count db rec then rec.total_amount * (5 / 100) else 0 := rfl

theorem compute_discount_snd (db : List Appointment) (rec : Appointment) :
    (compute_discount db rec).2 =
      rec.total_amount - (compute_discount db rec).1 := rfl

/-- C5: discount_amount is 5% of total_amount exactly when the client had
at least five prior done appointments (counted by strictly earlier
date_start), else 0, and final_amount = total_amount - discount_amount;
in particular 5 prior done and a subtotal of 100 give (5, 95), while 4
prior done give (0, 100). -/
theorem discount_from_prior_done (db : List Appointment) (rec : Appointment) :
    ((compute_discount db rec).1 =
      if 5 ≤ prior_done_count db rec then rec.total_amount * (5 / 100) else 0) ∧
    ((compute_discount db rec).2 =
      rec.total_amount - (compute_discount db rec).1) ∧
    (prior_done_count db rec = 5 → rec.total_amount = 100 →
      compute_discount db rec = (5, 95)) ∧
    (prior_done_count db rec = 4 → rec.total_amount = 100 →
      compute_discount db rec = (0, 100)) := by
  refine ⟨rfl, rfl, ?_, ?_⟩
  · intro h5 h100
    have h1 : (compute_discount db rec).1 = 5 := by
      rw [compute_discount_fst, if_pos (by omega), h100]
      norm_num
    have h2 : (compute_discount db rec).2 = 95 := by
      rw [compute_discount_snd, h1, h100]
      norm_num
    exact Prod.ext h1 h2
  · intro h4 h100
    have h1 : (compute_discount db rec).1 = 0 := by
      rw [compute_discount_fst, if_neg (by omega)]
    have h2 : (compute_discount db rec).2 = 100 := by
      rw [compute_discount_snd, h1, h100]
      norm_num
    exact Prod.ext h1 h2

/-- C5 witness: client 7 with five prior done appointments books a 6th
for a subtotal of 100 and gets discount 5 and final 95; the same booking
placed after only four of them gets discount 0 and final 100. -/
theorem discount_from_prior_done_witness :
    prior_done_count clientHistory5 apptAfterFive = 5 ∧
    compute_discount clientHistory5 apptAfterFive = (5, 95) ∧
    prior_done_count clientHistory5 apptAfterFour = 4 ∧
    compute_discount clientHistory5 apptAfterFour = (0, 100) := by
  refine ⟨by decide, ?_, by decide, ?_⟩
  · exact (discount_from_prior_done clientHistory5 apptAfterFive).2.2.1
      (by decide) rfl
  · exact (discount_from_prior_done clientHistory5 apptAfterFour).2.2.2
      (by decide) rfl

/-- C6 counterexample: the client's 6th-by-time appointment, with exactly
five prior done appointments, does receive the 5% discount (5 on a
subtotal of 100, not 0), contradicting the claim that it does not. -/
theorem sixth_appointment_gets_discount :
    prior_done_count clientHistory5 apptAfterFive = 5 ∧
    (compute_discount clientHistory5 apptAfterFive).1 = 5 ∧
    ¬(compute_discount clientHistory5 apptAfterFive).1 = 0 := by
  have h5 : prior_done_count clientHistory5 apptAfterFive = 5 := by decide
  have hd : (compute_discount clientHistory5 apptAfterFive).1 = 5 := by
    rw [compute_discount_fst, if_pos (by omega)]
    norm_num [apptAfterFive]
  exact ⟨h5, hd, by rw [hd]; norm_num⟩

/-- C6 amended: the discount threshold is five prior done appointments:
an appointment with six prior done (the client's 7th-by-time or later)
receives the 5% discount, and the 6th-by-time appointment with exactly
five prior done already receives it as well. -/
theorem discount_threshold_five (db : List Appointment) (rec : Appointment) :
    (6 ≤ prior_done_count db rec →
      (compute_discount db rec).1 = rec.total_amount * (5 / 100)) ∧
    (prior_done_count db rec = 5 →
      (compute_discount db rec).1 = rec.total_amount * (5 / 100)) := by
  constructor
  · intro h
    rw [compute_discount_fst, if_pos (by omega)]
  · intro h
    rw [compute_discount_fst, if_pos (by omega)]

/-- C6 amended witness: client 7's 7th-by-time appointment (six prior
done) and 6th-by-time appointment (five prior done) both receive the 5%
discount. -/
theorem discount_threshold_five_witness :
    (compute_discount clientHistory6 seventhAppt).1 =
      seventhAppt.total_amount * (5 / 100) ∧
    (compute_discount clientHistory5 apptAfterFive).1 =
      apptAfterFive.total_amount * (5 / 100) :=
  ⟨(discount_threshold_five clientHistory6 seventhAppt).1 (by decide),
   (discount_threshold_five clientHistory5 apptAfterFive).2 (by decide)⟩

/-- C10: the per-appointment discount ignores the appointment's own
lifecycle state: changing only the state changes neither discount_amount
nor final_amount, and a cancelled appointment whose client had five or
more prior done appointments and a nonzero subtotal still carries a
nonzero discount_amount. -/
theorem discount_ignores_own_state (db : List Appointment) (rec : Appointment) :
    (∀ s : ApptState,
      compute_discount db { rec with state := s } = compute_discount db rec) ∧
    (rec.state = ApptState.cancelled → 5 ≤ prior_done_count db rec →
      rec.total_amount ≠ 0 → (compute_discount db rec).1 ≠ 0) := by
  refine ⟨fun s => rfl, ?_⟩
  intro hcanc h5 hne h0
  rw [compute_discount_fst, if_pos h5] at h0
  rcases mul_eq_zero.mp h0 with h | h
  · exact hne h
  · norm_num at h

/-- C10 witness: a cancelled appointment of client 7 with five prior done
appointments and subtotal 100 carries a nonzero discount_amount. -/
theorem discount_ignores_own_state_witness :
    (compute_discount clientHistory5 cancelledSixth).1 ≠ 0 :=
  (discount_ignores_own_state clientHistory5 cancelledSixth).2
    rfl (by decide) (by decide)

theorem has_active_appointments_iff (appts : List Appointment) :
    has_active_appointments appts = true ↔
      ∃ a ∈ appts,
        a.state = ApptState.draft ∨ a.state = ApptState.confirmed := by
  simp [has_active_appointments, List.any_eq_true]

/-- C8: the at-most-one invariant fails on the code. The create guard of
stylehub.schedule runs its search_count once per call, before insertion,
and create receives a vals_list: a single batch create of two policies on
an empty table passes the guard and commits both records, so a two-record
state is reachable by successful commits and, deletion being always
refused, can never be emptied — even though the guard does refuse any
create once a record exists and unlink always fails, as the claim states
and the source's own singleton comment and error message intend. -/
theorem schedule_batch_create_breaks_singleton :
    schedule_create [] [default_schedule, default_schedule] =
      .ok [default_schedule, default_schedule] ∧
    SchedReachable [default_schedule, default_schedule] ∧
    ([default_schedule, default_schedule] : List Schedule).length = 2 ∧
    schedule_create [default_schedule] [default_schedule] =
      .error .ScheduleAlreadyExists ∧
    schedule_unlink [default_schedule, default_schedule] =
      .error .ScheduleIsProtected := by
  refine ⟨rfl, ?_, rfl, rfl, rfl⟩
  exact SchedReachable.step (SchedOp.create [default_schedule, default_schedule])
    SchedReachable.init rfl

/-- C9: writing the Schedule Policy fails with ScheduleLocked exactly when
some appointment is in state draft or confirmed at the time of the write;
once every appointment is done or cancelled the same write succeeds. -/
theorem schedule_write_locked_iff (appts : List Appointment)
    (schedules : List Schedule) (vals : Schedule → Schedule) :
    (schedule_write appts schedules vals = .error .ScheduleLocked ↔
      ∃ a ∈ appts,
        a.state = ApptState.draft ∨ a.state = ApptState.confirmed) ∧
    ((∀ a ∈ appts, a.state = ApptState.done ∨ a.state = ApptState.cancelled) →
      schedule_write appts schedules vals = .ok (schedules.map vals)) := by
  have hiff := has_active_appointments_iff appts
  constructor
  · constructor
    · intro herr
      by_contra hno
      have hfalse : has_active_appointments appts = false := by
        rcases Bool.eq_false_or_eq_true (has_active_appointments appts) with h | h
        · exact absurd (hiff.mp h) hno
        · exact h
      unfold schedule_write at herr
      rw [if_neg (by rw [hfalse]; exact Bool.false_ne_true)] at herr
      exact Except.noConfusion herr
    · intro hex
      unfold schedule_write
      rw [if_pos (hiff.mpr hex)]
  · intro hall
    have hfalse : has_active_appointments appts = false := by
      rcases Bool.eq_false_or_eq_true (has_active_appointments appts) with h | h
      · obtain ⟨a, ha, hs⟩ := hiff.mp h
        rcases hall a ha with h1 | h1 <;> rcases hs with h2 | h2 <;>
          rw [h1] at h2 <;> exact ApptState.noConfusion h2
      · exact h
    unfold schedule_write
    rw [if_neg (by rw [hfalse]; exact Bool.false_ne_true)]

/-- C9 witness: a write is refused with ScheduleLocked while a draft
appointment exists and accepted once the only appointment is done. -/
theorem schedule_write_locked_iff_witness :
    schedule_write [⟨1, 1, 1, 10, 12, 50, .draft⟩] [default_schedule] id =
      .error .ScheduleLocked ∧
    schedule_write [⟨1, 1, 1, 10, 12, 50, .done⟩] [default_schedule] id =
      .ok [default_schedule] := by
  constructor
  · exact (schedule_write_locked_iff [⟨1, 1, 1, 10, 12, 50, .draft⟩]
      [default_schedule] id).1.mpr
      ⟨⟨1, 1, 1, 10, 12, 50, .draft⟩, by simp, Or.inl rfl⟩
  · exact (schedule_write_locked_iff [⟨1, 1, 1, 10, 12, 50, .done⟩]
      [default_schedule] id).2 (by decide)

/-- C3: with a configured Schedule Policy, an appointment whose local
date_start falls on Monday through Friday passes the business-hours check
iff it is fully contained in the morning window or fully contained in the
afternoon window (window_open ≤ start and end ≤ window_close, windows
built on the start's local day), failing with OutsideBusinessHours
otherwise (straddling the midday break or running past closing); an
appointment whose local date_start falls on Sunday always fails with
ClosedDay. -/
theorem business_hours_weekday_sunday (p : Schedule) (s e : Nat) :
    (weekdayOf s ≤ 4 →
      ((check_business_hours (some p) s e = .ok ()) ↔
        ((make_time s p.weekday_morning_open ≤ (s : ℤ) ∧
            (e : ℤ) ≤ make_time s p.weekday_morning_close) ∨
          (make_time s p.weekday_afternoon_open ≤ (s : ℤ) ∧
            (e : ℤ) ≤ make_time s p.weekday_afternoon_close))) ∧
      (¬((make_time s p.weekday_morning_open ≤ (s : ℤ) ∧
            (e : ℤ) ≤ make_time s p.weekday_morning_close) ∨
          (make_time s p.weekday_afternoon_open ≤ (s : ℤ) ∧
            (e : ℤ) ≤ make_time s p.weekday_afternoon_close)) →
        check_business_hours (some p) s e = .error .OutsideBusinessHours)) ∧
    (weekdayOf s = 6 →
      check_business_hours (some p) s e = .error .ClosedDay) := by
  constructor
  · intro hwd
    have h6 : ¬weekdayOf s = 6 := by omega
    have h5 : ¬weekdayOf s = 5 := by omega
    by_cases hin : (make_time s p.weekday_morning_open ≤ (s : ℤ) ∧
        (e : ℤ) ≤ make_time s p.weekday_morning_close) ∨
      (make_time s p.weekday_afternoon_open ≤ (s : ℤ) ∧
        (e : ℤ) ≤ make_time s p.weekday_afternoon_close)
    · have hok : check_business_hours (some p) s e = .ok () := by
        simp only [check_business_hours]
        rw [if_neg h6, if_neg h5, if_neg (fun hc => hin.elim hc.1 hc.2)]
      exact ⟨⟨fun _ => hin, fun _ => hok⟩, fun hnot => absurd hin hnot⟩
    · have herr : check_business_hours (some p) s e =
          .error .OutsideBusinessHours := by
        simp only [check_business_hours]
        rw [if_neg h6, if_neg h5,
          if_pos ⟨(not_or.mp hin).1, (not_or.mp hin).2⟩]
      refine ⟨⟨fun hok => ?_, fun hmem => absurd hmem hin⟩, fun _ => herr⟩
      rw [herr] at hok
      exact Except.noConfusion hok
  · intro h6
    simp only [check_business_hours]
    rw [if_pos h6]

/-- C3 witness: under the default policy (weekday morning 9:30 to 13:30,
afternoon 16:30 to 20:30), a Monday 10:00 to 11:00 appointment passes, a
Monday 14:00 to 15:00 appointment fails with OutsideBusinessHours, and a
Sunday 10:00 appointment fails with ClosedDay (local minutes, day 0 a
Monday). -/
theorem business_hours_weekday_sunday_witness :
    check_business_hours (some default_schedule) 600 660 = .ok () ∧
    check_business_hours (some default_schedule) 840 900 =
      .error .OutsideBusinessHours ∧
    check_business_hours (some default_schedule) 9240 9300 =
      .error .ClosedDay := by
  refine ⟨?_, ?_, ?_⟩
  · exact ((business_hours_weekday_sunday default_schedule 600 660).1
      (by decide)).1.mpr (Or.inl (by
        norm_num [make_time, floatHoursToMinutes, int_trunc, pyRound,
          default_schedule]))
  · exact ((business_hours_weekday_sunday default_schedule 840 900).1
      (by decide)).2 (by
        norm_num [make_time, floatHoursToMinutes, int_trunc, pyRound,
          default_schedule])
  · exact (business_hours_weekday_sunday default_schedule 9240 9300).2
      (by decide)
